import Mathlib

/-!
Verification of the debug session state machine of src/src/common/debugger.cpp.

The C++ source is shallowly embedded: `DebugMainLoop` becomes a step
function `stepEvent` on an explicit `LoopState` (the two session booleans,
the global process registry `g_Processes`, and the `pThreadInfo` local),
driven over a list of OS debug events by `runLoop`.  External side-effecting
calls (`dumpException`, `dumpStack`, `TerminateProcess`, `SetEvent`,
`CloseHandle`, symbol-provider calls, the relayed debug string) are recorded
in an `Effect` trace.  `std::map` is embedded as a key-sorted association
list with `mfind` / `mset` / `merase`; `operator[]` (lookup that inserts a
value-initialized record when the key is absent) is `mfind … |>.getD default`
followed by `mset`.  Windows `HANDLE`s, addresses and ids are `Nat`.
-/

/-- NTSTATUS code of the ordinary breakpoint exception (0x80000003). -/
def STATUS_BREAKPOINT : Nat := 0x80000003

/-- NTSTATUS code of the WOW64 compatibility-subsystem breakpoint (0x4000001F). -/
def STATUS_WX86_BREAKPOINT : Nat := 0x4000001F

/-- Embedding of `THREAD_INFO`: the per-thread record holding the thread handle. -/
structure THREAD_INFO where
  hThread : Nat
deriving Repr, DecidableEq

/-- Lookup in a `std::map` embedded as an association list (`map::find`). -/
def mfind {α : Type} (m : List (Nat × α)) (k : Nat) : Option α :=
  match m with
  | [] => none
  | (k1, v1) :: rest => if k = k1 then some v1 else mfind rest k

/-- Insert-or-assign in a key-sorted association list (`map::operator[] = v`). -/
def mset {α : Type} (m : List (Nat × α)) (k : Nat) (v : α) : List (Nat × α) :=
  match m with
  | [] => [(k, v)]
  | (k1, v1) :: rest =>
    if k < k1 then (k, v) :: (k1, v1) :: rest
    else if k = k1 then (k, v) :: rest
    else (k1, v1) :: mset rest k v

/-- Key removal in an association list (`map::erase`). -/
def merase {α : Type} (m : List (Nat × α)) (k : Nat) : List (Nat × α) :=
  match m with
  | [] => []
  | (k1, v1) :: rest => if k1 = k then merase rest k else (k1, v1) :: merase rest k

/-- Embedding of `PROCESS_INFO`: process handle plus the `THREAD_INFO_LIST` map. -/
structure PROCESS_INFO where
  hProcess : Nat
  Threads : List (Nat × THREAD_INFO)
deriving Repr, DecidableEq

/-- The two-valued continuation disposition handed to `ContinueDebugEvent`. -/
inductive ContinueStatus where
  | dbgContinue
  | dbgExceptionNotHandled
deriving Repr, DecidableEq

/-- Embedding of the `DebugOptions` fields read by `DebugMainLoop`.
`hEvent = none` models a NULL handle. -/
structure DebugOptions where
  debug_flag : Bool
  breakpoint_flag : Bool
  first_chance : Bool
  verbose_flag : Bool
  hEvent : Option Nat
deriving Repr, DecidableEq

/-- The kind-specific payload of a `DEBUG_EVENT`, one constructor per
`dwDebugEventCode` handled by the switch.  Only fields the handler reads are
kept.  For `OUTPUT_DEBUG_STRING_EVENT` the outcome of the subsequent
`ReadProcessMemory` call (success flag plus the bytes the OS copied) is part
of the event, since it is input from the environment. -/
inductive EventKind where
  | exceptionEv (exceptionCode : Nat) (dwFirstChance : Bool)
  | createThreadEv (hThread : Nat)
  | createProcessEv (hFile : Nat) (hProcess : Nat) (hThread : Nat) (lpBaseOfImage : Nat)
  | exitThreadEv (dwExitCode : Nat)
  | exitProcessEv (dwExitCode : Nat)
  | loadDllEv (hFile : Nat) (lpBaseOfDll : Nat)
  | unloadDllEv (lpBaseOfDll : Nat)
  | debugStringEv (lpDebugStringData : Nat) (nDebugStringLength : Nat)
      (readOk : Bool) (bytesObtained : List Nat)
  | ripEv
  | unknownEv (code : Nat)
deriving Repr, DecidableEq

/-- Embedding of `DEBUG_EVENT`: reporting process/thread ids plus payload. -/
structure DEBUG_EVENT where
  dwProcessId : Nat
  dwThreadId : Nat
  u : EventKind
deriving Repr, DecidableEq

/-- Trace entry for each externally visible call the loop body makes. -/
inductive Effect where
  | setEvent (h : Nat)
  | closeHandle (h : Nat)
  | symRefreshModuleList (hProcess : Nat)
  | dumpExceptionEff (hProcess : Nat) (code : Nat)
  | dumpStack (hProcess : Nat) (hThread : Nat)
  | terminateProcess (hProcess : Nat) (exitCode : Nat)
  | symInitialize (hProcess : Nat)
  | symCleanup (hProcess : Nat)
  | loadModuleEff (hProcess : Nat) (hFile : Nat) (lpBase : Nat)
  | unloadModuleEff (hProcess : Nat) (lpBase : Nat)
  | outputDebugStr (bytes : List Nat)
deriving Repr, DecidableEq

/-- The mutable state of one `DebugMainLoop` activation: the global registry
`g_Processes`, the two session booleans, and the `pThreadInfo` local.
`pThreadInfo` is declared afresh (uninitialized) in each loop iteration of
the C source; as the spec notes, the exception branch reads it while only
other branches set it, so in practice it holds the thread handle stored by a
previous branch.  It is embedded as the handle value last stored through it
(`none` = never set, an indeterminate read in C). -/
structure LoopState where
  g_Processes : List (Nat × PROCESS_INFO)
  fBreakpointSignalled : Bool
  fWowBreakpointSignalled : Bool
  pThreadInfo : Option Nat
deriving Repr, DecidableEq

/-- State at entry of `DebugMainLoop`: empty registry, both flags false. -/
def initState : LoopState :=
  { g_Processes := [], fBreakpointSignalled := false,
    fWowBreakpointSignalled := false, pThreadInfo := none }

/-- Result of processing one debug event: successor state, effect trace,
the `dwContinueStatus` passed to `ContinueDebugEvent`, and whether the
branch set `fFinished`. -/
structure StepResult where
  st : LoopState
  effs : List Effect
  dwContinueStatus : ContinueStatus
  fFinished : Bool
deriving Repr, DecidableEq

/-- Embedding of `readProcessString` (debugger.cpp:151-164).  The buffer is
`malloc(nSize + 1)` whose indeterminate fill is `junk`; `ReadProcessMemory`
either fails (`readOk = false`) or writes `data` (with
`NumberOfBytesRead = data.length`) into the front of the buffer.  On failure
the code stores a NUL at index 0; in every case it stores a NUL at index
`NumberOfBytesRead` and returns the buffer. -/
def readProcessString (junk : Nat) (readOk : Bool) (data : List Nat) (nSize : Nat) :
    List Nat :=
  let buffer := data ++ List.replicate (nSize + 1 - data.length) junk
  let buffer1 := if readOk then buffer else buffer.set 0 0
  buffer1.set data.length 0

/-- The C string denoted by a byte buffer: its bytes up to the first NUL. -/
def cString (l : List Nat) : List Nat :=
  l.takeWhile (fun b => b != 0)

/-- The capture part of the exception branch (debugger.cpp:248-278): the
`g_Processes[pid]` lookup, `SymRefreshModuleList`, `dumpException`, the
per-thread dump loop, and the second-chance `TerminateProcess`.  A thread is
skipped (`continue`) exactly when it is not the reporting thread, the code is
not `STATUS_BREAKPOINT`, and `verbose_flag` is clear.  The source passes
`pThreadInfo->hThread` to `dumpStack` — the stale handle stored by a previous
branch — not the iterated thread's own `it->second.hThread`. -/
def exceptionCapture (opts : DebugOptions) (s : LoopState) (effs0 : List Effect)
    (pid tid code : Nat) (dwFirstChance : Bool) (status : ContinueStatus) : StepResult :=
  let pInfo := (mfind s.g_Processes pid).getD { hProcess := 0, Threads := [] }
  let g1 := mset s.g_Processes pid pInfo
  let considered := pInfo.Threads.filter (fun t =>
    if t.1 ≠ tid ∧ code ≠ STATUS_BREAKPOINT ∧ opts.verbose_flag = false then false
    else true)
  let dumps := considered.map (fun _t => Effect.dumpStack pInfo.hProcess (s.pThreadInfo.getD 0))
  let terms := if dwFirstChance then [] else [Effect.terminateProcess pInfo.hProcess code]
  { st := { s with g_Processes := g1 },
    effs := effs0 ++ [Effect.symRefreshModuleList pInfo.hProcess,
                      Effect.dumpExceptionEff pInfo.hProcess code] ++ dumps ++ terms,
    dwContinueStatus := status,
    fFinished := false }

/-- The part of the first-chance path after the attach-breakpoint block
(debugger.cpp:236-246): the WOW64 breakpoint check, then the
`!pOptions->first_chance` early `break`. -/
def exceptionFirstChanceRest (opts : DebugOptions) (s : LoopState) (effs0 : List Effect)
    (pid tid code : Nat) : StepResult :=
  let wowHit := code = STATUS_WX86_BREAKPOINT ∧ s.fWowBreakpointSignalled = false
  let s1 := if wowHit then { s with fWowBreakpointSignalled := true } else s
  let status := if wowHit then ContinueStatus.dbgContinue
                else ContinueStatus.dbgExceptionNotHandled
  if opts.first_chance = false then
    { st := s1, effs := effs0, dwContinueStatus := status, fFinished := false }
  else
    exceptionCapture opts s1 effs0 pid tid code true status

/-- The `EXCEPTION_DEBUG_EVENT` branch (debugger.cpp:192-279).
`dwContinueStatus` starts as `DBG_EXCEPTION_NOT_HANDLED`; a first-chance
`STATUS_BREAKPOINT` with `fBreakpointSignalled` clear sets the flag, signals
and closes `hEvent` when configured, and — unless `breakpoint_flag` — breaks
out with `DBG_CONTINUE`. -/
def handleException (opts : DebugOptions) (s : LoopState) (pid tid code : Nat)
    (dwFirstChance : Bool) : StepResult :=
  if dwFirstChance then
    if code = STATUS_BREAKPOINT ∧ s.fBreakpointSignalled = false then
      let s1 := { s with fBreakpointSignalled := true }
      let effs1 := match opts.hEvent with
        | some h => [Effect.setEvent h, Effect.closeHandle h]
        | none => []
      if opts.breakpoint_flag = false then
        { st := s1, effs := effs1, dwContinueStatus := ContinueStatus.dbgContinue,
          fFinished := false }
      else
        exceptionFirstChanceRest opts s1 effs1 pid tid code
    else
      exceptionFirstChanceRest opts s [] pid tid code
  else
    exceptionCapture opts s [] pid tid code false ContinueStatus.dbgExceptionNotHandled

/-- One iteration of the `DebugMainLoop` body after `WaitForDebugEvent`:
the switch on `dwDebugEventCode` (debugger.cpp:191-466).  `dwContinueStatus`
is initialized to `DBG_CONTINUE` (line 176) and only the exception branch
reassigns it. -/
def stepEvent (opts : DebugOptions) (s : LoopState) (ev : DEBUG_EVENT) : StepResult :=
  match ev.u with
  | EventKind.exceptionEv code fc =>
      handleException opts s ev.dwProcessId ev.dwThreadId code fc
  | EventKind.createThreadEv hThread =>
      let pInfo := (mfind s.g_Processes ev.dwProcessId).getD { hProcess := 0, Threads := [] }
      let p1 := { pInfo with Threads := mset pInfo.Threads ev.dwThreadId { hThread := hThread } }
      let s1 := { s with
        g_Processes := mset s.g_Processes ev.dwProcessId p1
        pThreadInfo := some hThread }
      { st := s1, effs := [], dwContinueStatus := ContinueStatus.dbgContinue,
        fFinished := false }
  | EventKind.createProcessEv hFile hProcess hThread lpBaseOfImage =>
      let pInfo := (mfind s.g_Processes ev.dwProcessId).getD { hProcess := 0, Threads := [] }
      let p1 := { pInfo with
        hProcess := hProcess
        Threads := mset pInfo.Threads ev.dwThreadId { hThread := hThread } }
      let s1 := { s with
        g_Processes := mset s.g_Processes ev.dwProcessId p1
        pThreadInfo := some hThread }
      { st := s1,
        effs := [Effect.symInitialize hProcess,
                 Effect.loadModuleEff hProcess hFile lpBaseOfImage],
        dwContinueStatus := ContinueStatus.dbgContinue, fFinished := false }
  | EventKind.exitThreadEv _dwExitCode =>
      let pInfo := (mfind s.g_Processes ev.dwProcessId).getD { hProcess := 0, Threads := [] }
      let p1 := { pInfo with Threads := merase pInfo.Threads ev.dwThreadId }
      { st := { s with g_Processes := mset s.g_Processes ev.dwProcessId p1 },
        effs := [], dwContinueStatus := ContinueStatus.dbgContinue, fFinished := false }
  | EventKind.exitProcessEv dwExitCode =>
      let pInfo := (mfind s.g_Processes ev.dwProcessId).getD { hProcess := 0, Threads := [] }
      let hProcess := pInfo.hProcess
      -- Dump the stack on abort(): the Threads operator[] may value-initialize
      -- a fresh THREAD_INFO (hThread = NULL), but the record is erased below.
      let abortHit := dwExitCode = 3
      let tInfo := (mfind pInfo.Threads ev.dwThreadId).getD { hThread := 0 }
      let s1 := if abortHit then { s with pThreadInfo := some tInfo.hThread } else s
      let effs1 := if abortHit then [Effect.dumpStack hProcess tInfo.hThread] else []
      let g1 := merase s.g_Processes ev.dwProcessId
      { st := { s1 with g_Processes := g1 },
        effs := effs1 ++ [Effect.symCleanup hProcess],
        dwContinueStatus := ContinueStatus.dbgContinue,
        fFinished := g1.isEmpty }
  | EventKind.loadDllEv hFile lpBaseOfDll =>
      let pInfo := (mfind s.g_Processes ev.dwProcessId).getD { hProcess := 0, Threads := [] }
      { st := { s with g_Processes := mset s.g_Processes ev.dwProcessId pInfo },
        effs := [Effect.loadModuleEff pInfo.hProcess hFile lpBaseOfDll],
        dwContinueStatus := ContinueStatus.dbgContinue, fFinished := false }
  | EventKind.unloadDllEv lpBaseOfDll =>
      let pInfo := (mfind s.g_Processes ev.dwProcessId).getD { hProcess := 0, Threads := [] }
      { st := { s with g_Processes := mset s.g_Processes ev.dwProcessId pInfo },
        effs := [Effect.unloadModuleEff pInfo.hProcess lpBaseOfDll],
        dwContinueStatus := ContinueStatus.dbgContinue, fFinished := false }
  | EventKind.debugStringEv _lpData nLength readOk bytesObtained =>
      let pInfo := (mfind s.g_Processes ev.dwProcessId).getD { hProcess := 0, Threads := [] }
      let lpDebugStringData := readProcessString 255 readOk bytesObtained nLength
      { st := { s with g_Processes := mset s.g_Processes ev.dwProcessId pInfo },
        effs := [Effect.outputDebugStr (cString lpDebugStringData)],
        dwContinueStatus := ContinueStatus.dbgContinue, fFinished := false }
  | EventKind.ripEv =>
      { st := s, effs := [], dwContinueStatus := ContinueStatus.dbgContinue,
        fFinished := false }
  | EventKind.unknownEv _code =>
      { st := s, effs := [], dwContinueStatus := ContinueStatus.dbgContinue,
        fFinished := false }

/-- Result of driving `DebugMainLoop` over a finite event list. -/
structure LoopResult where
  st : LoopState
  effs : List Effect
  returnedTrue : Bool
deriving Repr, DecidableEq

/-- The `while (!fFinished)` loop of `DebugMainLoop` over a finite prefix of
the OS event stream: process events in order until a branch sets `fFinished`
(the loop then returns TRUE).  If the list runs out first the loop would
still be blocked in `WaitForDebugEvent` (`returnedTrue = false`). -/
def runLoop (opts : DebugOptions) (s : LoopState) : List DEBUG_EVENT → LoopResult
  | [] => { st := s, effs := [], returnedTrue := false }
  | ev :: rest =>
    let r := stepEvent opts s ev
    if r.fFinished then { st := r.st, effs := r.effs, returnedTrue := true }
    else
      let q := runLoop opts r.st rest
      { st := q.st, effs := r.effs ++ q.effs, returnedTrue := q.returnedTrue }

/-- The registry (and state) obtained by replaying every event of the
sequence through the loop body, i.e. the per-event mutation semantics of
`g_Processes`. -/
def replayState (opts : DebugOptions) (s : LoopState) (evs : List DEBUG_EVENT) : LoopState :=
  evs.foldl (fun st ev => (stepEvent opts st ev).st) s

/-- Number of `dumpException` calls in an effect trace. -/
def countDumpException (effs : List Effect) : Nat :=
  effs.countP (fun e => match e with
    | Effect.dumpExceptionEff _ _ => true
    | _ => false)

/-- Number of `dumpStack` calls in an effect trace. -/
def countDumpStack (effs : List Effect) : Nat :=
  effs.countP (fun e => match e with
    | Effect.dumpStack _ _ => true
    | _ => false)

/-- The `dumpStack` calls of a trace, as (process handle, thread handle) pairs. -/
def dumpStackCalls (effs : List Effect) : List (Nat × Nat) :=
  effs.filterMap (fun e => match e with
    | Effect.dumpStack hp ht => some (hp, ht)
    | _ => none)

/-- The `TerminateProcess` calls of a trace, as (process handle, exit code) pairs. -/
def terminateCalls (effs : List Effect) : List (Nat × Nat) :=
  effs.filterMap (fun e => match e with
    | Effect.terminateProcess hp c => some (hp, c)
    | _ => none)

/-- Number of `SetEvent` calls in an effect trace. -/
def countSetEvent (effs : List Effect) : Nat :=
  effs.countP (fun e => match e with
    | Effect.setEvent _ => true
    | _ => false)

/-- Number of `CloseHandle` calls on the attach-signal handle in a trace. -/
def countCloseHandle (effs : List Effect) : Nat :=
  effs.countP (fun e => match e with
    | Effect.closeHandle _ => true
    | _ => false)

/-- Whether an event is a first-chance `STATUS_BREAKPOINT` exception. -/
def isFirstChanceBreakpoint (ev : DEBUG_EVENT) : Bool :=
  match ev.u with
  | EventKind.exceptionEv code fc => fc && decide (code = STATUS_BREAKPOINT)
  | _ => false

/-- Whether an event is a process-exit notification. -/
def isExitProcessEvent (ev : DEBUG_EVENT) : Bool :=
  match ev.u with
  | EventKind.exitProcessEv _ => true
  | _ => false

/-- Whose handler leaves `dwContinueStatus` untouched: every kind except
exceptions. -/
def choosesNoDisposition (u : EventKind) : Bool :=
  match u with
  | EventKind.exceptionEv _ _ => false
  | _ => true

/-- Whether a thread id is recorded under a process id in the registry. -/
def threadInRegistry (g : List (Nat × PROCESS_INFO)) (pid tid : Nat) : Bool :=
  match mfind g pid with
  | some p => (mfind p.Threads tid).isSome
  | none => false

/-- The keys of an association list are pairwise distinct. -/
def keysNodup {α : Type} (m : List (Nat × α)) : Prop :=
  (m.map Prod.fst).Nodup

/-- The spec-side registry for claim C5, following the spec's words: the set
of processes, and per process the set of threads, created but not yet
exited.  Compared against the registry the code maintains. -/
structure SpecRegistry where
  procAlive : Nat → Bool
  threadAlive : Nat → Nat → Bool

/-- Spec-side replay step: process-create adds the process with exactly its
initial thread, thread-create adds a thread, thread-exit removes it,
process-exit removes the process and all its threads.  Other kinds do not
change what has been created or exited. -/
def specStep (r : SpecRegistry) (ev : DEBUG_EVENT) : SpecRegistry :=
  match ev.u with
  | EventKind.createProcessEv _ _ _ _ =>
      { procAlive := fun q => if q = ev.dwProcessId then true else r.procAlive q
        threadAlive := fun q t =>
          if q = ev.dwProcessId then (if t = ev.dwThreadId then true else false)
          else r.threadAlive q t }
  | EventKind.createThreadEv _ =>
      { r with threadAlive := fun q t =>
          if q = ev.dwProcessId ∧ t = ev.dwThreadId then true else r.threadAlive q t }
  | EventKind.exitThreadEv _ =>
      { r with threadAlive := fun q t =>
          if q = ev.dwProcessId ∧ t = ev.dwThreadId then false else r.threadAlive q t }
  | EventKind.exitProcessEv _ =>
      { procAlive := fun q => if q = ev.dwProcessId then false else r.procAlive q
        threadAlive := fun q t => if q = ev.dwProcessId then false else r.threadAlive q t }
  | _ => r

/-- Spec-side replay of a whole event sequence. -/
def specReplay (r : SpecRegistry) (evs : List DEBUG_EVENT) : SpecRegistry :=
  evs.foldl specStep r

/-- The empty spec-side registry: nothing created yet. -/
def specInit : SpecRegistry :=
  { procAlive := fun _ => false, threadAlive := fun _ _ => false }

/-- The registry discipline for one event (claim C5): only lifecycle
notifications occur, thread events reference a process currently registered,
a process is created only while not registered and exits only while
registered. -/
def okEvent (r : SpecRegistry) (ev : DEBUG_EVENT) : Bool :=
  match ev.u with
  | EventKind.createProcessEv _ _ _ _ => !(r.procAlive ev.dwProcessId)
  | EventKind.createThreadEv _ => r.procAlive ev.dwProcessId
  | EventKind.exitThreadEv _ => r.procAlive ev.dwProcessId
  | EventKind.exitProcessEv _ => r.procAlive ev.dwProcessId
  | _ => false

/-- The registry discipline over a whole sequence. -/
def disciplined (r : SpecRegistry) : List DEBUG_EVENT → Bool
  | [] => true
  | ev :: rest => okEvent r ev && disciplined (specStep r ev) rest

/-- The code registry and the spec-side registry agree: same registered
processes, and the same recorded threads for every process. -/
def registryMatchesSpec (s : LoopState) (r : SpecRegistry) : Prop :=
  ∀ pid tid, ((mfind s.g_Processes pid).isSome = r.procAlive pid) ∧
    (threadInRegistry s.g_Processes pid tid = r.threadAlive pid tid)

instance {α : Type} (m : List (Nat × α)) : Decidable (keysNodup m) :=
  inferInstanceAs (Decidable ((m.map Prod.fst).Nodup))

/-- Loop options for the C8 counterexample session. -/
def opts8 : DebugOptions :=
  { debug_flag := false, breakpoint_flag := false, first_chance := false,
    verbose_flag := false, hEvent := none }

/-- C8 session prefix: process 1 is created with initial thread 10, so
thread 10 is the process's only (hence last remaining) thread. -/
def evs8 : List DEBUG_EVENT :=
  [ { dwProcessId := 1, dwThreadId := 10, u := EventKind.createProcessEv 7 5 100 4096 } ]

/-- Loop options for the C4 failing session: `verbose_flag` (dump all
threads) set. -/
def opts4 : DebugOptions :=
  { debug_flag := false, breakpoint_flag := false, first_chance := false,
    verbose_flag := true, hEvent := none }

/-- C4 failing session prefix: process 1 created with initial thread 10
(handle 100), then thread 11 created (handle 200); the thread-create branch
leaves `pThreadInfo` pointing at thread 11's record. -/
def evs4 : List DEBUG_EVENT :=
  [ { dwProcessId := 1, dwThreadId := 10, u := EventKind.createProcessEv 7 5 100 4096 },
    { dwProcessId := 1, dwThreadId := 11, u := EventKind.createThreadEv 200 } ]

theorem mfind_mset {α : Type} (m : List (Nat × α)) (k k' : Nat) (v : α) :
    mfind (mset m k v) k' = if k' = k then some v else mfind m k' := by
  induction m with
  | nil =>
    by_cases h1 : k' = k <;> simp [mset, mfind, h1]
  | cons hd tl ih =>
    obtain ⟨k1, v1⟩ := hd
    by_cases hlt : k < k1
    · by_cases h1 : k' = k <;> by_cases h2 : k' = k1 <;>
        simp [mset, mfind, hlt, h1, h2]
    · by_cases heq : k = k1
      · subst heq
        by_cases h1 : k' = k <;> simp [mset, mfind, hlt, h1]
      · by_cases h2 : k' = k1
        · subst h2
          have h1 : ¬ k' = k := fun hc => heq hc.symm
          simp [mset, mfind, hlt, heq, h1]
        · simp [mset, mfind, hlt, heq, h2, ih]

theorem mfind_merase {α : Type} (m : List (Nat × α)) (k k' : Nat) :
    mfind (merase m k) k' = if k' = k then none else mfind m k' := by
  induction m with
  | nil =>
    by_cases h1 : k' = k <;> simp [merase, mfind, h1]
  | cons hd tl ih =>
    obtain ⟨k1, v1⟩ := hd
    by_cases h1 : k1 = k
    · subst h1
      by_cases h2 : k' = k1
      · subst h2
        simp [merase, mfind, ih]
      · simp [merase, mfind, ih, h2]
    · by_cases h2 : k' = k1
      · subst h2
        simp [merase, mfind, h1]
      · simp [merase, mfind, h1, h2, ih]

theorem cString_zero (l : List Nat) : cString (0 :: l) = [] := rfl

theorem cString_set_head (l : List Nat) (n : Nat) (hl : l ≠ []) :
    cString ((l.set 0 0).set n 0) = [] := by
  cases l with
  | nil => exact absurd rfl hl
  | cons a t =>
    cases n with
    | zero => exact cString_zero t
    | succ m => exact cString_zero (t.set m 0)

theorem set_append_singleton (data : List Nat) (junk : Nat) :
    (data ++ [junk]).set data.length 0 = data ++ [0] := by
  induction data with
  | nil => rfl
  | cons a d ih =>
    show a :: ((d ++ [junk]).set d.length 0) = a :: (d ++ [0])
    rw [ih]

/-- C6: `readProcessString`, given a read outcome obtaining at most `nSize`
bytes, allocates exactly `nSize + 1` bytes; a successful read of all `nSize`
bytes yields exactly those bytes followed by the terminator; a failed read
yields the empty string; and in every case the buffer is null-terminated at
the number of bytes actually obtained, so failure never propagates. -/
theorem readProcessString_spec (junk : Nat) (readOk : Bool) (data : List Nat)
    (nSize : Nat) (h : data.length ≤ nSize) :
    (readProcessString junk readOk data nSize).length = nSize + 1 ∧
    (readOk = true → data.length = nSize →
      readProcessString junk readOk data nSize = data ++ [0]) ∧
    (readOk = false → cString (readProcessString junk readOk data nSize) = []) ∧
    (readProcessString junk readOk data nSize)[data.length]? = some 0 := by
  refine ⟨?_, ?_, ?_, ?_⟩
  · cases readOk <;> simp [readProcessString] <;> omega
  · intro hok hlen
    have h1 : nSize + 1 - data.length = 1 := by omega
    simp only [readProcessString, hok, if_true, h1, List.replicate]
    rw [hlen]
    have h2 := set_append_singleton data junk
    rw [hlen] at h2
    exact h2
  · intro hok
    have hne : data ++ List.replicate (nSize + 1 - data.length) junk ≠ [] := by
      intro hemp
      have hlen := congrArg List.length hemp
      simp at hlen
      omega
    simp only [readProcessString, hok, Bool.false_eq_true, if_false]
    exact cString_set_head _ _ hne
  · have hlt : data.length <
        (if readOk = true then data ++ List.replicate (nSize + 1 - data.length) junk
         else (data ++ List.replicate (nSize + 1 - data.length) junk).set 0 0).length := by
      cases readOk <;> simp <;> omega
    simp only [readProcessString]
    exact List.getElem?_set_eq_of_lt 0 hlt

theorem readProcessString_spec_witness :
    ([65, 66, 67] : List Nat).length ≤ 3 ∧
    readProcessString 255 true [65, 66, 67] 3 = [65, 66, 67, 0] :=
  ⟨by decide, (readProcessString_spec 255 true [65, 66, 67] 3 (by decide)).2.1 rfl rfl⟩

/-- C7 counterexample: a RIP notification (whose handler does not touch the
disposition) is resumed with `DBG_CONTINUE` (continue-handled), not with
`DBG_EXCEPTION_NOT_HANDLED` (continue-unhandled) as the claim states:
`dwContinueStatus` is initialized to `DBG_CONTINUE` at the top of the loop
body. -/
theorem default_disposition_cx :
    (stepEvent
      { debug_flag := false, breakpoint_flag := false, first_chance := false,
        verbose_flag := false, hEvent := none }
      initState
      { dwProcessId := 1, dwThreadId := 2, u := EventKind.ripEv }).dwContinueStatus =
      ContinueStatus.dbgContinue ∧
    ContinueStatus.dbgContinue ≠ ContinueStatus.dbgExceptionNotHandled := by
  exact ⟨rfl, by decide⟩

/-- C7 amended: for every notification whose handler does not explicitly
choose a continuation disposition — all kinds except exceptions — the
disposition passed to the resume call is continue-handled (`DBG_CONTINUE`),
the loop's initialization default; continue-unhandled is the default only
inside the exception handler. -/
theorem default_disposition_amended (opts : DebugOptions) (s : LoopState)
    (ev : DEBUG_EVENT) (h : choosesNoDisposition ev.u = true) :
    (stepEvent opts s ev).dwContinueStatus = ContinueStatus.dbgContinue := by
  obtain ⟨pid, tid, u⟩ := ev
  cases u <;> simp_all [stepEvent, choosesNoDisposition]

theorem default_disposition_amended_witness :
    choosesNoDisposition EventKind.ripEv = true ∧
    (stepEvent
      { debug_flag := false, breakpoint_flag := false, first_chance := false,
        verbose_flag := false, hEvent := none }
      initState
      { dwProcessId := 1, dwThreadId := 2, u := EventKind.ripEv }).dwContinueStatus =
      ContinueStatus.dbgContinue :=
  ⟨by decide, default_disposition_amended _ _ _ (by decide)⟩

/-- C8 counterexample: a thread-exit notification that removes process 1's
last remaining thread (thread 10) with exit code 3 — the platform's abort
convention — attempts no stack dump at all: the `EXIT_THREAD_DEBUG_EVENT`
branch only erases the record. -/
theorem thread_exit_abort_cx :
    ((mfind (runLoop opts8 initState evs8).st.g_Processes 1).getD
        { hProcess := 0, Threads := [] }).Threads =
      [(10, { hThread := 100 })] ∧
    countDumpStack (stepEvent opts8 (runLoop opts8 initState evs8).st
      { dwProcessId := 1, dwThreadId := 10, u := EventKind.exitThreadEv 3 }).effs = 0 ∧
    threadInRegistry (stepEvent opts8 (runLoop opts8 initState evs8).st
      ⟨1, 10, EventKind.exitThreadEv 3⟩).st.g_Processes 1 10 = false := by
  decide

/-- C8 amended: a thread-exit notification removes the ThreadRecord with no
stack dump attempted, whatever its exit code; the abort-condition stack dump
of the reporting thread happens instead on a process-exit notification with
exit code 3, before the ProcessRecord's removal is finalized. -/
theorem thread_exit_amended (opts : DebugOptions) (s : LoopState) (pid tid code : Nat) :
    (countDumpStack (stepEvent opts s ⟨pid, tid, EventKind.exitThreadEv code⟩).effs = 0 ∧
      threadInRegistry
        (stepEvent opts s ⟨pid, tid, EventKind.exitThreadEv code⟩).st.g_Processes pid tid =
        false) ∧
    (∀ p, mfind s.g_Processes pid = some p →
      dumpStackCalls (stepEvent opts s ⟨pid, tid, EventKind.exitProcessEv 3⟩).effs =
        [(p.hProcess, ((mfind p.Threads tid).getD { hThread := 0 }).hThread)] ∧
      mfind (stepEvent opts s ⟨pid, tid, EventKind.exitProcessEv 3⟩).st.g_Processes pid =
        none) := by
  constructor
  · constructor
    · rfl
    · simp [stepEvent, threadInRegistry, mfind_mset, mfind_merase]
  · intro p hp
    constructor
    · simp [stepEvent, hp, dumpStackCalls]
    · simp [stepEvent, mfind_merase]

theorem thread_exit_amended_witness :
    mfind [(1, (⟨5, [(10, ⟨100⟩)]⟩ : PROCESS_INFO))] 1 = some ⟨5, [(10, ⟨100⟩)]⟩ ∧
    dumpStackCalls (stepEvent opts8
      { g_Processes := [(1, ⟨5, [(10, ⟨100⟩)]⟩)], fBreakpointSignalled := false,
        fWowBreakpointSignalled := false, pThreadInfo := none }
      ⟨1, 10, EventKind.exitProcessEv 3⟩).effs = [(5, 100)] :=
  ⟨by decide,
   ((thread_exit_amended opts8
      { g_Processes := [(1, ⟨5, [(10, ⟨100⟩)]⟩)], fBreakpointSignalled := false,
        fWowBreakpointSignalled := false, pThreadInfo := none }
      1 10 0).2 ⟨5, [(10, ⟨100⟩)]⟩ (by decide)).1⟩

/-- C4: on a second-chance access violation reported by thread 10, the
per-thread dump loop iterates threads 10 (handle 100) and 11 (handle 200)
but passes the stale `pThreadInfo->hThread` — handle 200, left over from the
thread-create branch — to both `dumpStack` calls; thread 10's own handle 100
is never passed, although its record is in the registry.  This is the
stale-thread-handle defect the spec's design notes flag. -/
theorem stale_thread_handle_bug :
    dumpStackCalls (stepEvent opts4 (runLoop opts4 initState evs4).st
      ⟨1, 10, EventKind.exceptionEv 3221225477 false⟩).effs = [(5, 200), (5, 200)] ∧
    mfind ((mfind (runLoop opts4 initState evs4).st.g_Processes 1).getD
      { hProcess := 0, Threads := [] }).Threads 10 = some { hThread := 100 } := by
  decide

theorem isEmpty_true_iff {α : Type} (l : List α) : l.isEmpty = true ↔ l = [] := by
  cases l <;> simp

theorem exceptionCapture_not_finished (opts : DebugOptions) (s : LoopState)
    (effs0 : List Effect) (pid tid code : Nat) (fc : Bool) (status : ContinueStatus) :
    (exceptionCapture opts s effs0 pid tid code fc status).fFinished = false := rfl

theorem exceptionFirstChanceRest_not_finished (opts : DebugOptions) (s : LoopState)
    (effs0 : List Effect) (pid tid code : Nat) :
    (exceptionFirstChanceRest opts s effs0 pid tid code).fFinished = false := by
  simp only [exceptionFirstChanceRest]
  split
  · rfl
  · rfl

theorem handleException_not_finished (opts : DebugOptions) (s : LoopState)
    (pid tid code : Nat) (fc : Bool) :
    (handleException opts s pid tid code fc).fFinished = false := by
  simp only [handleException]
  split
  · split
    · split
      · rfl
      · exact exceptionFirstChanceRest_not_finished opts _ _ pid tid code
    · exact exceptionFirstChanceRest_not_finished opts s [] pid tid code
  · rfl

theorem stepEvent_finished_iff (opts : DebugOptions) (s : LoopState) (ev : DEBUG_EVENT) :
    (stepEvent opts s ev).fFinished = true ↔
      ((∃ c, ev.u = EventKind.exitProcessEv c) ∧
        (stepEvent opts s ev).st.g_Processes = []) := by
  obtain ⟨pid, tid, u⟩ := ev
  cases u <;> simp [stepEvent, handleException_not_finished, isEmpty_true_iff]

theorem runLoop_nil (opts : DebugOptions) (s : LoopState) :
    runLoop opts s [] = { st := s, effs := [], returnedTrue := false } := rfl

theorem runLoop_cons_finished (opts : DebugOptions) (s : LoopState) (ev : DEBUG_EVENT)
    (rest : List DEBUG_EVENT) (h : (stepEvent opts s ev).fFinished = true) :
    runLoop opts s (ev :: rest) =
      { st := (stepEvent opts s ev).st, effs := (stepEvent opts s ev).effs,
        returnedTrue := true } := by
  simp [runLoop, h]

theorem runLoop_cons_not_finished (opts : DebugOptions) (s : LoopState) (ev : DEBUG_EVENT)
    (rest : List DEBUG_EVENT) (h : (stepEvent opts s ev).fFinished = false) :
    runLoop opts s (ev :: rest) =
      { st := (runLoop opts (stepEvent opts s ev).st rest).st,
        effs := (stepEvent opts s ev).effs ++ (runLoop opts (stepEvent opts s ev).st rest).effs,
        returnedTrue := (runLoop opts (stepEvent opts s ev).st rest).returnedTrue } := by
  simp [runLoop, h]

theorem runLoop_success_iff (opts : DebugOptions) (s : LoopState) (evs : List DEBUG_EVENT) :
    (runLoop opts s evs).returnedTrue = true ↔
      ∃ pre ev post, evs = pre ++ ev :: post ∧
        (runLoop opts s pre).returnedTrue = false ∧
        (stepEvent opts (runLoop opts s pre).st ev).fFinished = true := by
  induction evs generalizing s with
  | nil =>
    constructor
    · intro h
      exact absurd h (by simp [runLoop])
    · rintro ⟨pre, ev, post, hsplit, -, -⟩
      exact absurd hsplit (by simp)
  | cons e rest ih =>
    cases hf : (stepEvent opts s e).fFinished with
    | true =>
      rw [runLoop_cons_finished opts s e rest hf]
      constructor
      · intro _
        exact ⟨[], e, rest, rfl, rfl, hf⟩
      · intro _
        rfl
    | false =>
      rw [runLoop_cons_not_finished opts s e rest hf]
      show (runLoop opts (stepEvent opts s e).st rest).returnedTrue = true ↔ _
      rw [ih]
      constructor
      · rintro ⟨pre1, ev, post, hsplit, hnf, hstep⟩
        refine ⟨e :: pre1, ev, post, by simp [hsplit], ?_, ?_⟩
        · rw [runLoop_cons_not_finished opts s e pre1 hf]
          exact hnf
        · rw [runLoop_cons_not_finished opts s e pre1 hf]
          exact hstep
      · rintro ⟨pre, ev, post, hsplit, hnf, hstep⟩
        cases pre with
        | nil =>
          simp only [List.nil_append] at hsplit
          injection hsplit with h1 h2
          subst h1
          rw [runLoop_nil] at hstep
          exact absurd hstep (by simp [hf])
        | cons e2 pre1 =>
          injection hsplit with h1 h2
          subst h1
          rw [runLoop_cons_not_finished opts s e pre1 hf] at hnf hstep
          exact ⟨pre1, ev, post, h2, hnf, hstep⟩

/-- C1: `DebugMainLoop` returns success exactly when a process-exit
notification leaves the registry empty.  Step level: a branch sets
`fFinished` iff the event is a process-exit and the registry is empty after
its processing.  Loop level: the loop returns TRUE iff the event list splits
as a prefix that does not finish the loop followed by an event whose
processing finishes it; for every other notification, and for a process-exit
leaving records behind, the loop continues waiting. -/
theorem debugMainLoop_success_iff (opts : DebugOptions) (s : LoopState)
    (evs : List DEBUG_EVENT) :
    (∀ ev, (stepEvent opts s ev).fFinished = true ↔
      ((∃ c, ev.u = EventKind.exitProcessEv c) ∧
        (stepEvent opts s ev).st.g_Processes = [])) ∧
    ((runLoop opts s evs).returnedTrue = true ↔
      ∃ pre ev post, evs = pre ++ ev :: post ∧
        (runLoop opts s pre).returnedTrue = false ∧
        (stepEvent opts (runLoop opts s pre).st ev).fFinished = true) :=
  ⟨fun ev => stepEvent_finished_iff opts s ev, runLoop_success_iff opts s evs⟩

/-- C10: every handler that looks a process id up in the registry via
`g_Processes[pid]` tolerates an unregistered id: the lookup itself inserts a
fresh value-initialized `PROCESS_INFO` (null process handle, empty thread
map) and the handler proceeds with it — for exceptions reaching the capture
path it dumps and terminates against the null handle, thread-create records
the new thread under the fresh record, and thread-exit, module-load,
module-unload and debug-string leave the fresh record in place.  No case
fails or raises an error. -/
theorem unknown_pid_inserts_default (opts : DebugOptions) (s : LoopState)
    (pid tid : Nat) (h : mfind s.g_Processes pid = none) :
    (∀ code,
      mfind (stepEvent opts s ⟨pid, tid, EventKind.exceptionEv code false⟩).st.g_Processes
          pid = some { hProcess := 0, Threads := [] } ∧
      (stepEvent opts s ⟨pid, tid, EventKind.exceptionEv code false⟩).effs =
        [Effect.symRefreshModuleList 0, Effect.dumpExceptionEff 0 code,
         Effect.terminateProcess 0 code]) ∧
    (∀ ht,
      mfind (stepEvent opts s ⟨pid, tid, EventKind.createThreadEv ht⟩).st.g_Processes pid =
        some { hProcess := 0, Threads := [(tid, { hThread := ht })] }) ∧
    (∀ code,
      mfind (stepEvent opts s ⟨pid, tid, EventKind.exitThreadEv code⟩).st.g_Processes pid =
        some { hProcess := 0, Threads := [] }) ∧
    (∀ hf lp,
      mfind (stepEvent opts s ⟨pid, tid, EventKind.loadDllEv hf lp⟩).st.g_Processes pid =
        some { hProcess := 0, Threads := [] } ∧
      (stepEvent opts s ⟨pid, tid, EventKind.loadDllEv hf lp⟩).effs =
        [Effect.loadModuleEff 0 hf lp]) ∧
    (∀ lp,
      mfind (stepEvent opts s ⟨pid, tid, EventKind.unloadDllEv lp⟩).st.g_Processes pid =
        some { hProcess := 0, Threads := [] }) ∧
    (∀ addr n ok data,
      mfind (stepEvent opts s
          ⟨pid, tid, EventKind.debugStringEv addr n ok data⟩).st.g_Processes pid =
        some { hProcess := 0, Threads := [] }) := by
  refine ⟨?_, ?_, ?_, ?_, ?_, ?_⟩
  · intro code
    constructor
    · simp [stepEvent, handleException, exceptionCapture, h, mfind_mset]
    · simp [stepEvent, handleException, exceptionCapture, h]
  · intro ht
    simp [stepEvent, h, mfind_mset, mset, merase]
  · intro code
    simp [stepEvent, h, mfind_mset, merase]
  · intro hf lp
    constructor
    · simp [stepEvent, h, mfind_mset]
    · simp [stepEvent, h]
  · intro lp
    simp [stepEvent, h, mfind_mset]
  · intro addr n ok data
    simp [stepEvent, h, mfind_mset]

theorem unknown_pid_inserts_default_witness :
    mfind initState.g_Processes 9 = none ∧
    mfind (stepEvent opts8 initState
        ⟨9, 2, EventKind.createThreadEv 100⟩).st.g_Processes 9 =
      some { hProcess := 0, Threads := [(2, { hThread := 100 })] } :=
  ⟨rfl, (unknown_pid_inserts_default opts8 initState 9 2 rfl).2.1 100⟩

theorem stepEvent_second_chance (opts : DebugOptions) (s : LoopState)
    (pid tid code : Nat) (p : PROCESS_INFO) (hp : mfind s.g_Processes pid = some p) :
    (stepEvent opts s ⟨pid, tid, EventKind.exceptionEv code false⟩).effs =
      [Effect.symRefreshModuleList p.hProcess, Effect.dumpExceptionEff p.hProcess code] ++
      (p.Threads.filter (fun t =>
        if t.1 ≠ tid ∧ code ≠ STATUS_BREAKPOINT ∧ opts.verbose_flag = false then false
        else true)).map (fun _t => Effect.dumpStack p.hProcess (s.pThreadInfo.getD 0)) ++
      [Effect.terminateProcess p.hProcess code] := by
  simp [stepEvent, handleException, exceptionCapture, hp]

theorem countP_map_const {α β : Type} (l : List α) (c : β) (p : β → Bool) :
    (l.map (fun _ => c)).countP p = if p c then l.length else 0 := by
  induction l with
  | nil => simp
  | cons a t ih =>
    rw [List.map_cons, List.countP_cons, ih]
    by_cases hc : p c = true <;> simp [hc]

theorem filter_key_length_one {α : Type} (m : List (Nat × α)) (k : Nat)
    (hnd : (m.map Prod.fst).Nodup) (hk : (mfind m k).isSome = true) :
    (m.filter (fun t => decide (t.1 = k))).length = 1 := by
  induction m with
  | nil => simp [mfind] at hk
  | cons hd tl ih =>
    obtain ⟨k1, v1⟩ := hd
    simp only [List.map_cons, List.nodup_cons] at hnd
    obtain ⟨hk1, hndtl⟩ := hnd
    by_cases h1 : k = k1
    · subst h1
      have htl : tl.filter (fun t => decide (t.1 = k)) = [] := by
        apply List.filter_eq_nil_iff.mpr
        intro t ht
        simp only [decide_eq_true_eq]
        intro he
        exact hk1 (he ▸ List.mem_map_of_mem Prod.fst ht)
      simp [List.filter_cons, htl]
    · have hk2 : (mfind tl k).isSome = true := by
        simpa [mfind, h1] using hk
      have hrec := ih hndtl hk2
      have hh : k1 ≠ k := fun he => h1 he.symm
      simp [List.filter_cons, hh, hrec]

/-- C2: a second-chance exception on a registered process performs exactly
one exception-record capture, one stack dump per considered thread — the
faulting thread only, unless `dumpAllThreads` (`verbose_flag`) is set or the
exception code is the breakpoint code, in which case every live thread of
the process — and exactly one terminate call on the reporting process with
the exception code as exit-code argument. -/
theorem second_chance_exception_spec (opts : DebugOptions) (s : LoopState)
    (pid tid code : Nat) (p : PROCESS_INFO)
    (hp : mfind s.g_Processes pid = some p)
    (hnd : keysNodup p.Threads)
    (hfault : (mfind p.Threads tid).isSome = true) :
    countDumpException
      (stepEvent opts s ⟨pid, tid, EventKind.exceptionEv code false⟩).effs = 1 ∧
    countDumpStack (stepEvent opts s ⟨pid, tid, EventKind.exceptionEv code false⟩).effs =
      (if opts.verbose_flag = true ∨ code = STATUS_BREAKPOINT then p.Threads.length
       else 1) ∧
    terminateCalls (stepEvent opts s ⟨pid, tid, EventKind.exceptionEv code false⟩).effs =
      [(p.hProcess, code)] := by
  rw [stepEvent_second_chance opts s pid tid code p hp]
  refine ⟨?_, ?_, ?_⟩
  · rw [countDumpException, List.countP_append, List.countP_append, countP_map_const]
    simp
  · rw [countDumpStack, List.countP_append, List.countP_append, countP_map_const]
    by_cases hv : opts.verbose_flag = true
    · have hall : ∀ t ∈ p.Threads,
          (if t.1 ≠ tid ∧ code ≠ STATUS_BREAKPOINT ∧ opts.verbose_flag = false then false
           else true) = true := by
        intro t _
        simp [hv]
      rw [List.filter_eq_self.mpr hall]
      simp [hv]
    · by_cases hbp : code = STATUS_BREAKPOINT
      · have hall : ∀ t ∈ p.Threads,
            (if t.1 ≠ tid ∧ code ≠ STATUS_BREAKPOINT ∧ opts.verbose_flag = false then false
             else true) = true := by
          intro t _
          simp [hbp]
        rw [List.filter_eq_self.mpr hall]
        simp [hbp]
      · simp only [Bool.not_eq_true] at hv
        have hcong : ∀ t ∈ p.Threads,
            (if t.1 ≠ tid ∧ code ≠ STATUS_BREAKPOINT ∧ opts.verbose_flag = false then false
             else true) = decide (t.1 = tid) := by
          intro t _
          by_cases h1 : t.1 = tid <;> simp [h1, hbp, hv]
        rw [List.filter_congr hcong,
            filter_key_length_one p.Threads tid hnd hfault]
        simp [hv, hbp]
  · simp [terminateCalls, List.filterMap_append]

theorem second_chance_exception_spec_witness :
    mfind (⟨[(1, ⟨5, [(10, ⟨100⟩), (11, ⟨200⟩)]⟩)], false, false,
        some 200⟩ : LoopState).g_Processes 1 =
      some ⟨5, [(10, ⟨100⟩), (11, ⟨200⟩)]⟩ ∧
    keysNodup ([(10, (⟨100⟩ : THREAD_INFO)), (11, ⟨200⟩)]) ∧
    countDumpStack (stepEvent ⟨false, false, false, false, none⟩
      ⟨[(1, ⟨5, [(10, ⟨100⟩), (11, ⟨200⟩)]⟩)], false, false, some 200⟩
      ⟨1, 10, EventKind.exceptionEv 3221225477 false⟩).effs = 1 :=
  ⟨by decide, by decide,
   ((second_chance_exception_spec ⟨false, false, false, false, none⟩
      ⟨[(1, ⟨5, [(10, ⟨100⟩), (11, ⟨200⟩)]⟩)], false, false, some 200⟩
      1 10 3221225477 ⟨5, [(10, ⟨100⟩), (11, ⟨200⟩)]⟩
      (by decide) (by decide) (by decide)).2.1).trans (by decide)⟩

theorem exceptionFirstChanceRest_flag (opts : DebugOptions) (s : LoopState)
    (effs0 : List Effect) (pid tid code : Nat) :
    (exceptionFirstChanceRest opts s effs0 pid tid code).st.fBreakpointSignalled =
      s.fBreakpointSignalled := by
  simp only [exceptionFirstChanceRest, exceptionCapture]
  split <;> split <;> rfl

theorem stepEvent_flag_preserved (opts : DebugOptions) (s : LoopState) (ev : DEBUG_EVENT)
    (h : isFirstChanceBreakpoint ev = false) :
    (stepEvent opts s ev).st.fBreakpointSignalled = s.fBreakpointSignalled := by
  obtain ⟨pid, tid, u⟩ := ev
  cases u with
  | exceptionEv code fc =>
    simp only [isFirstChanceBreakpoint] at h
    cases fc with
    | false => rfl
    | true =>
      have hbp : ¬ code = STATUS_BREAKPOINT := by simpa using h
      simp [stepEvent, handleException, hbp, exceptionFirstChanceRest_flag]
  | createThreadEv ht => rfl
  | createProcessEv a b c d => rfl
  | exitThreadEv c => rfl
  | exitProcessEv c =>
    simp only [stepEvent]
    split <;> rfl
  | loadDllEv a b => rfl
  | unloadDllEv a => rfl
  | debugStringEv a b c d => rfl
  | ripEv => rfl
  | unknownEv c => rfl

theorem runLoop_flag_preserved (opts : DebugOptions) (evs : List DEBUG_EVENT) :
    ∀ s : LoopState, (∀ ev ∈ evs, isFirstChanceBreakpoint ev = false) →
      (runLoop opts s evs).st.fBreakpointSignalled = s.fBreakpointSignalled := by
  induction evs with
  | nil =>
    intro s _
    rfl
  | cons e rest ih =>
    intro s hall
    have he := hall e (List.mem_cons_self e rest)
    have hrest : ∀ ev ∈ rest, isFirstChanceBreakpoint ev = false :=
      fun ev hm => hall ev (List.mem_cons_of_mem e hm)
    cases hf : (stepEvent opts s e).fFinished with
    | true =>
      rw [runLoop_cons_finished opts s e rest hf]
      exact stepEvent_flag_preserved opts s e he
    | false =>
      rw [runLoop_cons_not_finished opts s e rest hf]
      exact (ih (stepEvent opts s e).st hrest).trans (stepEvent_flag_preserved opts s e he)

theorem stepEvent_first_fcbp (opts : DebugOptions) (s : LoopState) (pid tid : Nat)
    (hbp : opts.breakpoint_flag = false) (hflag : s.fBreakpointSignalled = false) :
    stepEvent opts s ⟨pid, tid, EventKind.exceptionEv STATUS_BREAKPOINT true⟩ =
      { st := { s with fBreakpointSignalled := true },
        effs := match opts.hEvent with
          | some h => [Effect.setEvent h, Effect.closeHandle h]
          | none => [],
        dwContinueStatus := ContinueStatus.dbgContinue,
        fFinished := false } := by
  simp [stepEvent, handleException, hflag, hbp]

/-- C3: with `captureAttachBreakpoint` (`breakpoint_flag`) false, the first
first-chance breakpoint of a session — i.e. one arriving after a replay
containing no first-chance breakpoint, starting from a state whose
`fBreakpointSignalled` is clear — yields disposition continue-handled
(`DBG_CONTINUE`) and zero diagnostic captures (no exception dump, no stack
dump), whatever the reporting process and however many processes are
registered. -/
theorem attach_breakpoint_silent (opts : DebugOptions) (s0 : LoopState)
    (evs : List DEBUG_EVENT) (pid tid : Nat)
    (hbp : opts.breakpoint_flag = false)
    (hflag : s0.fBreakpointSignalled = false)
    (hevs : ∀ ev ∈ evs, isFirstChanceBreakpoint ev = false) :
    (stepEvent opts (runLoop opts s0 evs).st
        ⟨pid, tid, EventKind.exceptionEv STATUS_BREAKPOINT true⟩).dwContinueStatus =
      ContinueStatus.dbgContinue ∧
    countDumpException (stepEvent opts (runLoop opts s0 evs).st
        ⟨pid, tid, EventKind.exceptionEv STATUS_BREAKPOINT true⟩).effs = 0 ∧
    countDumpStack (stepEvent opts (runLoop opts s0 evs).st
        ⟨pid, tid, EventKind.exceptionEv STATUS_BREAKPOINT true⟩).effs = 0 := by
  have hflag1 : (runLoop opts s0 evs).st.fBreakpointSignalled = false :=
    (runLoop_flag_preserved opts evs s0 hevs).trans hflag
  rw [stepEvent_first_fcbp opts (runLoop opts s0 evs).st pid tid hbp hflag1]
  cases opts.hEvent <;> simp [countDumpException, countDumpStack]

theorem attach_breakpoint_silent_witness :
    (⟨false, false, true, false, some 42⟩ : DebugOptions).breakpoint_flag = false ∧
    (stepEvent ⟨false, false, true, false, some 42⟩
        (runLoop ⟨false, false, true, false, some 42⟩ initState
          [⟨1, 10, EventKind.createProcessEv 7 5 100 4096⟩]).st
        ⟨1, 10, EventKind.exceptionEv STATUS_BREAKPOINT true⟩).dwContinueStatus =
      ContinueStatus.dbgContinue :=
  ⟨rfl,
   (attach_breakpoint_silent ⟨false, false, true, false, some 42⟩ initState
      [⟨1, 10, EventKind.createProcessEv 7 5 100 4096⟩] 1 10 rfl rfl
      (by decide)).1⟩

theorem stepEvent_flag_or (opts : DebugOptions) (s : LoopState) (ev : DEBUG_EVENT) :
    (stepEvent opts s ev).st.fBreakpointSignalled =
      (s.fBreakpointSignalled || isFirstChanceBreakpoint ev) := by
  by_cases h : isFirstChanceBreakpoint ev = true
  · rw [h, Bool.or_true]
    obtain ⟨pid, tid, u⟩ := ev
    cases u with
    | exceptionEv code fc =>
      simp only [isFirstChanceBreakpoint, Bool.and_eq_true, decide_eq_true_eq] at h
      obtain ⟨hfc, hbp⟩ := h
      subst hfc
      subst hbp
      by_cases hfl : s.fBreakpointSignalled = false
      · by_cases hbf : opts.breakpoint_flag = false
        · simp [stepEvent, handleException, hfl, hbf]
        · simp [stepEvent, handleException, hfl, hbf, exceptionFirstChanceRest_flag]
      · have hft : s.fBreakpointSignalled = true := by simpa using hfl
        simp [stepEvent, handleException, hft, exceptionFirstChanceRest_flag]
    | createThreadEv a => simp [isFirstChanceBreakpoint] at h
    | createProcessEv a b c d => simp [isFirstChanceBreakpoint] at h
    | exitThreadEv a => simp [isFirstChanceBreakpoint] at h
    | exitProcessEv a => simp [isFirstChanceBreakpoint] at h
    | loadDllEv a b => simp [isFirstChanceBreakpoint] at h
    | unloadDllEv a => simp [isFirstChanceBreakpoint] at h
    | debugStringEv a b c d => simp [isFirstChanceBreakpoint] at h
    | ripEv => simp [isFirstChanceBreakpoint] at h
    | unknownEv a => simp [isFirstChanceBreakpoint] at h
  · have hf : isFirstChanceBreakpoint ev = false := by simpa using h
    rw [stepEvent_flag_preserved opts s ev hf, hf]
    simp

theorem countSetEvent_append (l1 l2 : List Effect) :
    countSetEvent (l1 ++ l2) = countSetEvent l1 + countSetEvent l2 :=
  List.countP_append _ l1 l2

theorem countCloseHandle_append (l1 l2 : List Effect) :
    countCloseHandle (l1 ++ l2) = countCloseHandle l1 + countCloseHandle l2 :=
  List.countP_append _ l1 l2

theorem exceptionCapture_signal_counts (opts : DebugOptions) (s : LoopState)
    (effs0 : List Effect) (pid tid code : Nat) (fc : Bool) (status : ContinueStatus) :
    countSetEvent (exceptionCapture opts s effs0 pid tid code fc status).effs =
      countSetEvent effs0 ∧
    countCloseHandle (exceptionCapture opts s effs0 pid tid code fc status).effs =
      countCloseHandle effs0 := by
  constructor <;>
  · simp only [exceptionCapture, countSetEvent, countCloseHandle, List.countP_append,
      countP_map_const]
    cases fc <;> simp

theorem exceptionFirstChanceRest_signal_counts (opts : DebugOptions) (s : LoopState)
    (effs0 : List Effect) (pid tid code : Nat) :
    countSetEvent (exceptionFirstChanceRest opts s effs0 pid tid code).effs =
      countSetEvent effs0 ∧
    countCloseHandle (exceptionFirstChanceRest opts s effs0 pid tid code).effs =
      countCloseHandle effs0 := by
  constructor <;>
  · simp only [exceptionFirstChanceRest]
    split
    · rfl
    · first
      | exact (exceptionCapture_signal_counts opts _ effs0 pid tid code true _).1
      | exact (exceptionCapture_signal_counts opts _ effs0 pid tid code true _).2

theorem handleException_signal_counts (opts : DebugOptions) (s : LoopState)
    (pid tid code : Nat) (fc : Bool) (hh : Nat) (he : opts.hEvent = some hh) :
    countSetEvent (handleException opts s pid tid code fc).effs =
      (if fc = true ∧ code = STATUS_BREAKPOINT ∧ s.fBreakpointSignalled = false
       then 1 else 0) ∧
    countCloseHandle (handleException opts s pid tid code fc).effs =
      (if fc = true ∧ code = STATUS_BREAKPOINT ∧ s.fBreakpointSignalled = false
       then 1 else 0) := by
  cases fc with
  | false =>
    have hred : handleException opts s pid tid code false =
        exceptionCapture opts s [] pid tid code false
          ContinueStatus.dbgExceptionNotHandled := rfl
    have hc := exceptionCapture_signal_counts opts s [] pid tid code false
      ContinueStatus.dbgExceptionNotHandled
    rw [hred]
    constructor
    · rw [hc.1]
      simp [countSetEvent]
    · rw [hc.2]
      simp [countCloseHandle]
  | true =>
    by_cases hbpfl : code = STATUS_BREAKPOINT ∧ s.fBreakpointSignalled = false
    · obtain ⟨hbp, hfl⟩ := hbpfl
      subst hbp
      have hred : handleException opts s pid tid STATUS_BREAKPOINT true =
          (if opts.breakpoint_flag = false then
            ({ st := { s with fBreakpointSignalled := true },
               effs := [Effect.setEvent hh, Effect.closeHandle hh],
               dwContinueStatus := ContinueStatus.dbgContinue,
               fFinished := false } : StepResult)
          else exceptionFirstChanceRest opts { s with fBreakpointSignalled := true }
            [Effect.setEvent hh, Effect.closeHandle hh] pid tid STATUS_BREAKPOINT) := by
        simp [handleException, hfl, he]
      rw [hred]
      by_cases hbf : opts.breakpoint_flag = false
      · rw [if_pos hbf]
        constructor <;> simp [countSetEvent, countCloseHandle, hfl]
      · rw [if_neg hbf]
        have hr := exceptionFirstChanceRest_signal_counts opts
          { s with fBreakpointSignalled := true }
          [Effect.setEvent hh, Effect.closeHandle hh] pid tid STATUS_BREAKPOINT
        constructor
        · rw [hr.1]
          simp [countSetEvent, hfl]
        · rw [hr.2]
          simp [countCloseHandle, hfl]
    · have hred : handleException opts s pid tid code true =
          exceptionFirstChanceRest opts s [] pid tid code := by
        simp [handleException, hbpfl]
      have hr := exceptionFirstChanceRest_signal_counts opts s [] pid tid code
      rw [hred]
      constructor
      · rw [hr.1]
        simp [countSetEvent, hbpfl]
      · rw [hr.2]
        simp [countCloseHandle, hbpfl]

theorem stepEvent_setEvent_count (opts : DebugOptions) (s : LoopState) (ev : DEBUG_EVENT)
    (hh : Nat) (he : opts.hEvent = some hh) :
    countSetEvent (stepEvent opts s ev).effs =
      (if s.fBreakpointSignalled = false ∧ isFirstChanceBreakpoint ev = true
       then 1 else 0) ∧
    countCloseHandle (stepEvent opts s ev).effs =
      (if s.fBreakpointSignalled = false ∧ isFirstChanceBreakpoint ev = true
       then 1 else 0) := by
  obtain ⟨pid, tid, u⟩ := ev
  cases u with
  | exceptionEv code fc =>
    have hx := handleException_signal_counts opts s pid tid code fc hh he
    have hiff : (fc = true ∧ code = STATUS_BREAKPOINT ∧ s.fBreakpointSignalled = false) ↔
        (s.fBreakpointSignalled = false ∧
          isFirstChanceBreakpoint ⟨pid, tid, EventKind.exceptionEv code fc⟩ = true) := by
      simp only [isFirstChanceBreakpoint, Bool.and_eq_true, decide_eq_true_eq]
      constructor
      · rintro ⟨a, b, c⟩
        exact ⟨c, a, b⟩
      · rintro ⟨c, a, b⟩
        exact ⟨a, b, c⟩
    constructor
    · rw [show (stepEvent opts s ⟨pid, tid, EventKind.exceptionEv code fc⟩) =
          handleException opts s pid tid code fc from rfl, hx.1, if_congr hiff rfl rfl]
    · rw [show (stepEvent opts s ⟨pid, tid, EventKind.exceptionEv code fc⟩) =
          handleException opts s pid tid code fc from rfl, hx.2, if_congr hiff rfl rfl]
  | createThreadEv ht =>
    constructor <;> simp [stepEvent, countSetEvent, countCloseHandle, isFirstChanceBreakpoint]
  | createProcessEv a b c d =>
    constructor <;> simp [stepEvent, countSetEvent, countCloseHandle, isFirstChanceBreakpoint]
  | exitThreadEv c =>
    constructor <;> simp [stepEvent, countSetEvent, countCloseHandle, isFirstChanceBreakpoint]
  | exitProcessEv c =>
    constructor <;>
      · simp only [stepEvent]
        split <;> simp [countSetEvent, countCloseHandle, isFirstChanceBreakpoint]
  | loadDllEv a b =>
    constructor <;> simp [stepEvent, countSetEvent, countCloseHandle, isFirstChanceBreakpoint]
  | unloadDllEv a =>
    constructor <;> simp [stepEvent, countSetEvent, countCloseHandle, isFirstChanceBreakpoint]
  | debugStringEv a b c d =>
    constructor <;> simp [stepEvent, countSetEvent, countCloseHandle, isFirstChanceBreakpoint]
  | ripEv =>
    constructor <;> simp [stepEvent, countSetEvent, countCloseHandle, isFirstChanceBreakpoint]
  | unknownEv c =>
    constructor <;> simp [stepEvent, countSetEvent, countCloseHandle, isFirstChanceBreakpoint]

theorem runLoop_flag_mono (opts : DebugOptions) (evs : List DEBUG_EVENT) :
    ∀ s : LoopState, s.fBreakpointSignalled = true →
      (runLoop opts s evs).st.fBreakpointSignalled = true := by
  induction evs with
  | nil =>
    intro s h
    exact h
  | cons e rest ih =>
    intro s h
    have hstep : (stepEvent opts s e).st.fBreakpointSignalled = true := by
      rw [stepEvent_flag_or, h]
      simp
    cases hf : (stepEvent opts s e).fFinished with
    | true =>
      rw [runLoop_cons_finished opts s e rest hf]
      exact hstep
    | false =>
      rw [runLoop_cons_not_finished opts s e rest hf]
      exact ih _ hstep

theorem runLoop_signal_counts (opts : DebugOptions) (hh : Nat) (he : opts.hEvent = some hh)
    (evs : List DEBUG_EVENT) :
    ∀ s : LoopState,
      countSetEvent (runLoop opts s evs).effs =
        (if s.fBreakpointSignalled = false ∧
            (runLoop opts s evs).st.fBreakpointSignalled = true then 1 else 0) ∧
      countCloseHandle (runLoop opts s evs).effs =
        (if s.fBreakpointSignalled = false ∧
            (runLoop opts s evs).st.fBreakpointSignalled = true then 1 else 0) := by
  induction evs with
  | nil =>
    intro s
    cases hsf : s.fBreakpointSignalled <;>
      simp [runLoop, countSetEvent, countCloseHandle, hsf]
  | cons e rest ih =>
    intro s
    have hcnt := stepEvent_setEvent_count opts s e hh he
    have hor := stepEvent_flag_or opts s e
    cases hf : (stepEvent opts s e).fFinished with
    | true =>
      rw [runLoop_cons_finished opts s e rest hf]
      cases hsf : s.fBreakpointSignalled with
      | true =>
        rw [hsf] at hor
        constructor
        · rw [hcnt.1]
          simp [hsf]
        · rw [hcnt.2]
          simp [hsf]
      | false =>
        rw [hsf] at hor
        simp only [Bool.false_or] at hor
        constructor
        · rw [hcnt.1, hor]
          simp [hsf]
        · rw [hcnt.2, hor]
          simp [hsf]
    | false =>
      rw [runLoop_cons_not_finished opts s e rest hf]
      have hrest := ih (stepEvent opts s e).st
      cases hsf : s.fBreakpointSignalled with
      | true =>
        rw [hsf] at hor
        have hm : (stepEvent opts s e).st.fBreakpointSignalled = true := by simp [hor]
        have hms := runLoop_flag_mono opts rest _ hm
        constructor
        · rw [countSetEvent_append, hcnt.1, hrest.1]
          simp [hsf, hm]
        · rw [countCloseHandle_append, hcnt.2, hrest.2]
          simp [hsf, hm]
      | false =>
        rw [hsf] at hor
        simp only [Bool.false_or] at hor
        cases hbp2 : isFirstChanceBreakpoint e with
        | true =>
          rw [hbp2] at hor
          have hms := runLoop_flag_mono opts rest _ hor
          constructor
          · rw [countSetEvent_append, hcnt.1, hrest.1]
            simp [hsf, hbp2, hor, hms]
          · rw [countCloseHandle_append, hcnt.2, hrest.2]
            simp [hsf, hbp2, hor, hms]
        | false =>
          rw [hbp2] at hor
          constructor
          · rw [countSetEvent_append, hcnt.1, hrest.1]
            simp [hsf, hbp2, hor]
          · rw [countCloseHandle_append, hcnt.2, hrest.2]
            simp [hsf, hbp2, hor]

/-- C9: with an attach-signal handle configured, over a whole session the
handle is signaled exactly as many times as it is released, never more than
once, exactly once when (and only when) the session observed its first
first-chance breakpoint (recorded by `fBreakpointSignalled`), and the only
step that signals it is the first first-chance breakpoint processed while
the flag is still clear. -/
theorem attach_signal_once (opts : DebugOptions) (s0 : LoopState)
    (evs : List DEBUG_EVENT) (hh : Nat)
    (he : opts.hEvent = some hh) (hflag : s0.fBreakpointSignalled = false) :
    countSetEvent (runLoop opts s0 evs).effs =
      countCloseHandle (runLoop opts s0 evs).effs ∧
    countSetEvent (runLoop opts s0 evs).effs ≤ 1 ∧
    (countSetEvent (runLoop opts s0 evs).effs = 1 ↔
      (runLoop opts s0 evs).st.fBreakpointSignalled = true) ∧
    (∀ s ev, 0 < countSetEvent (stepEvent opts s ev).effs ↔
      (s.fBreakpointSignalled = false ∧ isFirstChanceBreakpoint ev = true)) := by
  obtain ⟨h1, h2⟩ := runLoop_signal_counts opts hh he evs s0
  refine ⟨?_, ?_, ?_, ?_⟩
  · rw [h1, h2]
  · rw [h1]
    split <;> simp
  · rw [h1, hflag]
    cases hfin : (runLoop opts s0 evs).st.fBreakpointSignalled <;> simp [hfin]
  · intro s ev
    rw [(stepEvent_setEvent_count opts s ev hh he).1]
    by_cases hc : s.fBreakpointSignalled = false ∧ isFirstChanceBreakpoint ev = true <;>
      simp [hc]

theorem attach_signal_once_witness :
    (⟨false, false, false, false, some 42⟩ : DebugOptions).hEvent = some 42 ∧
    countSetEvent (runLoop ⟨false, false, false, false, some 42⟩ initState
        [⟨1, 10, EventKind.exceptionEv STATUS_BREAKPOINT true⟩]).effs =
      countCloseHandle (runLoop ⟨false, false, false, false, some 42⟩ initState
        [⟨1, 10, EventKind.exceptionEv STATUS_BREAKPOINT true⟩]).effs :=
  ⟨rfl,
   (attach_signal_once ⟨false, false, false, false, some 42⟩ initState
      [⟨1, 10, EventKind.exceptionEv STATUS_BREAKPOINT true⟩] 42 rfl rfl).1⟩

theorem registryMatchesSpec_step (opts : DebugOptions) (s : LoopState) (r : SpecRegistry)
    (ev : DEBUG_EVENT) (hinv : registryMatchesSpec s r) (hok : okEvent r ev = true) :
    registryMatchesSpec (stepEvent opts s ev).st (specStep r ev) := by
  obtain ⟨pid0, tid0, u⟩ := ev
  cases u with
  | createProcessEv hFile hProcess hThread lpBase =>
    have halive : r.procAlive pid0 = false := by simpa [okEvent] using hok
    have hnone : mfind s.g_Processes pid0 = none := by
      have h1 := (hinv pid0 0).1
      rw [halive] at h1
      exact Option.not_isSome_iff_eq_none.mp (by simp [h1])
    intro pid tid
    by_cases hpid : pid = pid0
    · subst hpid
      constructor
      · simp [stepEvent, specStep, mfind_mset, hnone]
      · by_cases htid : tid = tid0 <;>
          simp [stepEvent, specStep, threadInRegistry, mfind_mset, hnone, mset, mfind,
            htid]
    · constructor
      · have h1 := (hinv pid tid).1
        simp [stepEvent, specStep, mfind_mset, hpid, h1]
      · have h2 := (hinv pid tid).2
        simp [stepEvent, specStep, threadInRegistry, mfind_mset, hpid] at h2 ⊢
        exact h2
  | createThreadEv ht =>
    have halive : r.procAlive pid0 = true := by simpa [okEvent] using hok
    have hsome : ∃ p, mfind s.g_Processes pid0 = some p := by
      have h1 := (hinv pid0 0).1
      rw [halive] at h1
      exact Option.isSome_iff_exists.mp h1
    obtain ⟨p, hp⟩ := hsome
    intro pid tid
    by_cases hpid : pid = pid0
    · subst hpid
      constructor
      · simp [stepEvent, specStep, mfind_mset, hp, halive]
      · have hthread := (hinv pid tid).2
        simp only [threadInRegistry, hp] at hthread
        by_cases htid : tid = tid0 <;>
          simp [stepEvent, specStep, threadInRegistry, mfind_mset, hp, htid, hthread]
    · constructor
      · have h1 := (hinv pid tid).1
        simp [stepEvent, specStep, mfind_mset, hpid, h1]
      · have h2 := (hinv pid tid).2
        simp [stepEvent, specStep, threadInRegistry, mfind_mset, hpid] at h2 ⊢
        exact h2
  | exitThreadEv code =>
    have halive : r.procAlive pid0 = true := by simpa [okEvent] using hok
    have hsome : ∃ p, mfind s.g_Processes pid0 = some p := by
      have h1 := (hinv pid0 0).1
      rw [halive] at h1
      exact Option.isSome_iff_exists.mp h1
    obtain ⟨p, hp⟩ := hsome
    intro pid tid
    by_cases hpid : pid = pid0
    · subst hpid
      constructor
      · simp [stepEvent, specStep, mfind_mset, hp, halive]
      · have hthread := (hinv pid tid).2
        simp only [threadInRegistry, hp] at hthread
        by_cases htid : tid = tid0 <;>
          simp [stepEvent, specStep, threadInRegistry, mfind_mset, mfind_merase, hp,
            htid, hthread]
    · constructor
      · have h1 := (hinv pid tid).1
        simp [stepEvent, specStep, mfind_mset, hpid, h1]
      · have h2 := (hinv pid tid).2
        simp [stepEvent, specStep, threadInRegistry, mfind_mset, hpid] at h2 ⊢
        exact h2
  | exitProcessEv code =>
    intro pid tid
    by_cases hpid : pid = pid0
    · subst hpid
      constructor
      · simp [stepEvent, specStep, mfind_merase]
      · simp [stepEvent, specStep, threadInRegistry, mfind_merase]
    · constructor
      · have h1 := (hinv pid tid).1
        simp [stepEvent, specStep, mfind_merase, hpid, h1]
      · have h2 := (hinv pid tid).2
        simp [stepEvent, specStep, threadInRegistry, mfind_merase, hpid] at h2 ⊢
        exact h2
  | exceptionEv a b => simp [okEvent] at hok
  | loadDllEv a b => simp [okEvent] at hok
  | unloadDllEv a => simp [okEvent] at hok
  | debugStringEv a b c d => simp [okEvent] at hok
  | ripEv => simp [okEvent] at hok
  | unknownEv a => simp [okEvent] at hok

theorem registry_replay_general (opts : DebugOptions) (evs : List DEBUG_EVENT) :
    ∀ (s : LoopState) (r : SpecRegistry), registryMatchesSpec s r →
      disciplined r evs = true →
      registryMatchesSpec (replayState opts s evs) (specReplay r evs) := by
  induction evs with
  | nil =>
    intro s r hinv _
    exact hinv
  | cons e rest ih =>
    intro s r hinv hd
    simp only [disciplined, Bool.and_eq_true] at hd
    obtain ⟨hok, hrest⟩ := hd
    have hstep := registryMatchesSpec_step opts s r e hinv hok
    simp only [replayState, specReplay, List.foldl_cons]
    exact ih (stepEvent opts s e).st (specStep r e) hstep hrest

/-- C5: replaying any sequence of process-create, thread-create, thread-exit
and process-exit notifications that respects the registry discipline (thread
events reference a registered process, a process is created only while
unregistered and exits only while registered) leaves `g_Processes`
containing exactly the processes — and per process exactly the threads —
that have been created but not yet exited, as tracked by the spec-side
`SpecRegistry`. -/
theorem registry_replay_correct (opts : DebugOptions) (evs : List DEBUG_EVENT)
    (hd : disciplined specInit evs = true) :
    registryMatchesSpec (replayState opts initState evs) (specReplay specInit evs) := by
  apply registry_replay_general opts evs initState specInit ?_ hd
  intro pid tid
  exact ⟨rfl, rfl⟩

theorem registry_replay_correct_witness :
    disciplined specInit
      [⟨1, 10, EventKind.createProcessEv 7 5 100 4096⟩,
       ⟨1, 11, EventKind.createThreadEv 200⟩,
       ⟨1, 10, EventKind.exitThreadEv 0⟩,
       ⟨2, 20, EventKind.createProcessEv 8 6 300 8192⟩,
       ⟨1, 11, EventKind.exitProcessEv 0⟩] = true ∧
    ((mfind (replayState opts8 initState
        [⟨1, 10, EventKind.createProcessEv 7 5 100 4096⟩,
         ⟨1, 11, EventKind.createThreadEv 200⟩,
         ⟨1, 10, EventKind.exitThreadEv 0⟩,
         ⟨2, 20, EventKind.createProcessEv 8 6 300 8192⟩,
         ⟨1, 11, EventKind.exitProcessEv 0⟩]).g_Processes 2).isSome =
      (specReplay specInit
        [⟨1, 10, EventKind.createProcessEv 7 5 100 4096⟩,
         ⟨1, 11, EventKind.createThreadEv 200⟩,
         ⟨1, 10, EventKind.exitThreadEv 0⟩,
         ⟨2, 20, EventKind.createProcessEv 8 6 300 8192⟩,
         ⟨1, 11, EventKind.exitProcessEv 0⟩]).procAlive 2 ∧
     threadInRegistry (replayState opts8 initState
        [⟨1, 10, EventKind.createProcessEv 7 5 100 4096⟩,
         ⟨1, 11, EventKind.createThreadEv 200⟩,
         ⟨1, 10, EventKind.exitThreadEv 0⟩,
         ⟨2, 20, EventKind.createProcessEv 8 6 300 8192⟩,
         ⟨1, 11, EventKind.exitProcessEv 0⟩]).g_Processes 2 20 =
      (specReplay specInit
        [⟨1, 10, EventKind.createProcessEv 7 5 100 4096⟩,
         ⟨1, 11, EventKind.createThreadEv 200⟩,
         ⟨1, 10, EventKind.exitThreadEv 0⟩,
         ⟨2, 20, EventKind.createProcessEv 8 6 300 8192⟩,
         ⟨1, 11, EventKind.exitProcessEv 0⟩]).threadAlive 2 20) :=
  ⟨by decide,
   registry_replay_correct opts8
      [⟨1, 10, EventKind.createProcessEv 7 5 100 4096⟩,
       ⟨1, 11, EventKind.createThreadEv 200⟩,
       ⟨1, 10, EventKind.exitThreadEv 0⟩,
       ⟨2, 20, EventKind.createProcessEv 8 6 300 8192⟩,
       ⟨1, 11, EventKind.exitProcessEv 0⟩] (by decide) 2 20⟩
